import Mathlib

/-!
Verification development for the SpeechTrack AI teleprompter.

This file gives a shallow embedding of the core logic of the repository:

* the script-position tracker of the Teleprompter component (normalisation of
  the script and the spoken transcript, the distance-gated forward search, and
  the manual navigation events: word click, arrow keys, restart);
* the transcript segmenter of the useTextTranslation hook (watermark diffing,
  the punctuation and word-count triggers of processTranscript, the 2-second
  interval trigger, and the single-in-flight discipline of translateText);
* the scheduled-ahead playback queue shared by the streaming pipelines
  (nextPlayTime bookkeeping in playAudioChunk);
* the mode orchestration of the Teleprompter (mutual exclusion of the five
  pipeline variants) as a small labelled transition system;
* the teardown functions stop (useLocalPipeline) and disconnect
  (usePersonaPlex) on the resource state they release;
* the microphone PCM encoder pcmToBase64 on exact rational samples.

JavaScript strings are modelled through the character list underlying the
Lean String type; JavaScript numbers that carry times, durations, volumes and
audio samples are modelled as exact rationals; millisecond timestamps are
naturals.  Asynchronous callbacks (socket open events) are modelled as
explicit transition-system events.
-/

/-! ### JavaScript string primitives -/

/-- Model of the JavaScript `s.slice(0, n)` on character lists. -/
def strTake (s : String) (n : Nat) : String :=
  String.mk (s.data.take n)

/-- Model of the JavaScript `s.slice(n)` on character lists. -/
def strDrop (s : String) (n : Nat) : String :=
  String.mk (s.data.drop n)

/-- Model of the JavaScript `s.startsWith(p)`. -/
def strStartsWith (s p : String) : Bool :=
  p.data.isPrefixOf s.data

/-- Characters removed by the JavaScript `trim()` at either end. -/
def trimChars (l : List Char) : List Char :=
  ((l.dropWhile fun c => c.isWhitespace).reverse.dropWhile fun c => c.isWhitespace).reverse

/-- Model of the JavaScript `s.trim()`. -/
def strTrim (s : String) : String :=
  String.mk (trimChars s.data)

/-- Model of the JavaScript `s.split(/\s+/).filter(w => w !== "")`: maximal
runs of non-whitespace characters. -/
def splitWords (s : String) : List String :=
  ((s.data.splitOnP fun c => c.isWhitespace).filter fun w => w ≠ []).map String.mk

/-! ### Script model and position tracker (Teleprompter tracking effect)

The tracking effect normalises with
`toLowerCase().replace(/[^\w\s]|_/g, "")`: after lowercasing, exactly the
ASCII alphanumeric and whitespace characters survive. -/

/-- Characters kept by the normalisation regex, after lowercasing. -/
def cleanChars (l : List Char) : List Char :=
  (l.map Char.toLower).filter fun c => c.isAlphanum || c.isWhitespace

/-- One entry of the script model: the raw word and its normalised form
(`cleanWord` in the source). -/
structure WordItem where
  word : String
  cleanWord : String
deriving DecidableEq

/-- The script model built by the `words` memo of the Teleprompter: split the
script on whitespace, attach the cleaned form, drop blank entries. -/
def scriptWordItems (script : String) : List WordItem :=
  ((script.data.splitOnP fun c => c.isWhitespace).map fun w =>
      WordItem.mk (String.mk w) (String.mk (cleanChars w))).filter fun it =>
    strTrim it.word ≠ ""

/-- The normalised word sequence of the script, as scanned by the tracker. -/
def scriptCleanWords (script : String) : List String :=
  (scriptWordItems script).map WordItem.cleanWord

/-- Normalised transcript tokens: lowercase, strip punctuation, split on
whitespace, drop empties — the `transcriptWords` list of the tracking
effect. -/
def transcriptWords (t : String) : List String :=
  (((cleanChars t.data).splitOnP fun c => c.isWhitespace).filter fun w => w ≠ []).map String.mk

/-- The last spoken word of the transcript (the tracker only runs when the
token list is nonempty, so the default is never read). -/
def lastWordOf (t : String) : String :=
  (transcriptWords t).getLastD ""

/-- The second-last spoken word, when available. -/
def secondLastOf (t : String) : Option String :=
  if 1 < (transcriptWords t).length then
    some ((transcriptWords t).getD ((transcriptWords t).length - 2) "")
  else none

/-- The third-last spoken word, when available. -/
def thirdLastOf (t : String) : Option String :=
  if 2 < (transcriptWords t).length then
    some ((transcriptWords t).getD ((transcriptWords t).length - 3) "")
  else none

/-- How many consecutive tail words match at candidate index `i`, looking
backwards through the script, exactly as the nested conditionals of the
tracking effect compute `matchCount`. -/
def matchCountAt (cw : List String) (i : Nat) (second third : Option String) : Nat :=
  match second with
  | none => 1
  | some s2 =>
    if 0 < i ∧ cw.getD (i - 1) "" = s2 then
      match third with
      | none => 2
      | some s3 => if 1 < i ∧ cw.getD (i - 2) "" = s3 then 3 else 2
    else 1

/-- The distance-dependent confirmation requirement of the tracking effect. -/
def requiredMatches (distance : Nat) : Nat :=
  if 2 ≤ distance ∧ distance ≤ 10 then 2
  else if 10 < distance then 3
  else 1

/-- A candidate index qualifies when its normalised script word equals the
last spoken word and the consecutive-match count meets the requirement. -/
def qualifies (cw : List String) (a : Nat) (last : String) (second third : Option String)
    (i : Nat) : Bool :=
  decide (cw.getD i "" = last) &&
    decide (requiredMatches (i - a) ≤ matchCountAt cw i second third)

/-- One run of the tracking effect: scan script indices from `a` up to
`min (a + 20) cw.length` (exclusive) and advance to `i + 1` at the first
qualifying candidate, else leave the cursor unchanged. -/
def trackStep (cw : List String) (a : Nat) (t : String) : Nat :=
  if t = "" then a
  else if transcriptWords t = [] then a
  else
    match (List.range' a (min (a + 20) cw.length - a)).find?
        (qualifies cw a (lastWordOf t) (secondLastOf t) (thirdLastOf t)) with
    | some i => i + 1
    | none => a

/-! ### Cursor navigation events of the Teleprompter -/

/-- The events that write `activeIndex`: a tracking update, a word click, the
arrow keys, and the restart button. -/
inductive NavEvent where
  | track (t : String)
  | clickWord (i : Nat)
  | arrowForward
  | arrowBack
  | restart
deriving DecidableEq

/-- Effect of one navigation event on the cursor.  Arrow keys clamp as in the
source (`min(prev + 1, words.length - 1)` and `max(prev - 1, 0)`, the latter
being truncated subtraction on naturals); a click writes the clicked index;
restart writes 0.  The natural-number arrow-forward clamp agrees with the
source only for a non-empty script: on an empty script the source computes
`Math.min(prev + 1, -1) = -1`, which a natural-number cursor cannot
represent, so every cursor-range statement below is restricted to non-empty
scripts, as the cursor invariant of the spec is. -/
def navStep (cw : List String) (a : Nat) : NavEvent → Nat
  | NavEvent.track t => trackStep cw a t
  | NavEvent.clickWord i => i
  | NavEvent.arrowForward => min (a + 1) (cw.length - 1)
  | NavEvent.arrowBack => a - 1
  | NavEvent.restart => 0

/-- The cursor after a sequence of navigation events. -/
def runNav (cw : List String) (evts : List NavEvent) (a : Nat) : Nat :=
  evts.foldl (navStep cw) a

/-- The UI only creates click handlers for existing word indices. -/
def validNav (cw : List String) : NavEvent → Bool
  | NavEvent.clickWord i => decide (i < cw.length)
  | _ => true

/-! ### Transcript segmenter (useTextTranslation) -/

/-- The mutable refs of useTextTranslation that drive segmentation and the
in-flight discipline.  Timestamps are milliseconds. -/
structure SegState where
  lastProcessed : String
  lastProcessedTime : Nat
  lastActivityTime : Nat
  fullTranscript : String
  isTranslating : Bool
deriving DecidableEq

/-- New content computed by processTranscript: reset detection on shrink or
on a failed bounded prefix check, otherwise the trimmed suffix beyond the
watermark. -/
def newContentOf (lastProcessed t : String) : String :=
  if t.length < lastProcessed.length ∨
      strStartsWith t (strTake lastProcessed (min 50 lastProcessed.length)) = false then
    strTrim t
  else
    strTrim (strDrop t lastProcessed.length)

/-- Sentence-boundary characters of the `/[.!?,;:]/` test. -/
def sentencePunct : List Char := ['.', '!', '?', ',', ';', ':']

/-- Model of the `/[.!?,;:]/.test(newContent)` check. -/
def hasSentencePunct (s : String) : Bool :=
  s.data.any fun c => sentencePunct.contains c

/-- Number of whitespace-delimited words; agrees with the JavaScript
`split(/\s+/).length` on the trimmed nonempty strings it is applied to. -/
def wordCount (s : String) : Nat :=
  (splitWords s).length

/-- One call of processTranscript: record the transcript, diff against the
watermark, and hand the new content to translateText exactly when it contains
sentence punctuation or has at least five words, advancing the watermark to
the full transcript first.  The second component is the argument passed to
translateText, when any. -/
def processTranscript (st : SegState) (t : String) : SegState × Option String :=
  if t = "" then (st, none)
  else if t = st.lastProcessed then
    (SegState.mk st.lastProcessed st.lastProcessedTime st.lastActivityTime t st.isTranslating,
      none)
  else if newContentOf st.lastProcessed t = "" then
    (SegState.mk st.lastProcessed st.lastProcessedTime st.lastActivityTime t st.isTranslating,
      none)
  else if hasSentencePunct (newContentOf st.lastProcessed t)
      || decide (5 ≤ wordCount (newContentOf st.lastProcessed t)) then
    (SegState.mk t st.lastProcessedTime st.lastActivityTime t st.isTranslating,
      some (newContentOf st.lastProcessed t))
  else
    (SegState.mk st.lastProcessed st.lastProcessedTime st.lastActivityTime t st.isTranslating,
      none)

/-- One check of the 500 ms interval: when at least 2000 ms have passed since
the last processed translation and unprocessed content remains, the trimmed
unprocessed suffix with at least two words is handed to translateText and the
watermark advances to the full transcript. -/
def intervalStep (st : SegState) (now : Nat) : SegState × Option String :=
  if 2000 ≤ now - st.lastProcessedTime ∧
      st.lastProcessed.length < st.fullTranscript.length then
    if strTrim (strDrop st.fullTranscript st.lastProcessed.length) ≠ "" ∧
        2 ≤ wordCount (strTrim (strDrop st.fullTranscript st.lastProcessed.length)) then
      (SegState.mk st.fullTranscript st.lastProcessedTime st.lastActivityTime
          st.fullTranscript st.isTranslating,
        some (strTrim (strDrop st.fullTranscript st.lastProcessed.length)))
    else (st, none)
  else (st, none)

/-- Entry of translateText: empty text is ignored; while a request is in
flight with activity at most 10000 ms old a new call is dropped with no state
change; otherwise (idle, or stuck beyond 10000 ms and force-cleared) the call
proceeds, marking the request in flight and stamping both time refs with the
current time.  The boolean reports whether the translation proceeds. -/
def translateTextStep (st : SegState) (now : Nat) (text : String) : SegState × Bool :=
  if strTrim text = "" then (st, false)
  else if st.isTranslating = true ∧ now - st.lastActivityTime ≤ 10000 then (st, false)
  else (SegState.mk st.lastProcessed now now st.fullTranscript true, true)

/-! ### Scheduled-ahead playback queue (playAudioChunk) -/

/-- Scheduling step of playAudioChunk: the chunk starts at
`max(currentTime, nextPlayTime)` and `nextPlayTime` becomes that start plus
the chunk duration.  Returns (startTime, new nextPlayTime). -/
def scheduleChunk (nextPlayTime now dur : ℚ) : ℚ × ℚ :=
  (max now nextPlayTime, max now nextPlayTime + dur)

/-- Start times assigned to a sequence of chunks, each given as a pair of the
clock reading at its enqueue and its duration. -/
def scheduleStarts (nextPlayTime : ℚ) : List (ℚ × ℚ) → List ℚ
  | [] => []
  | (now, dur) :: rest =>
      (scheduleChunk nextPlayTime now dur).1 ::
        scheduleStarts (scheduleChunk nextPlayTime now dur).2 rest

/-! ### Session orchestration (mode-exclusive pipelines)

The orchestration effect of the Teleprompter, on starting a mode, first calls
the teardown of the other four modes (their connected flags drop and any
pending connection is closed before it can open) and then initiates the
connection of the selected mode, whose connected flag only rises when its
open callback later fires on a connection that was not torn down meanwhile. -/

/-- The five pipeline variants of the mode selector. -/
inductive PipeMode where
  | live
  | text
  | localOmni
  | localPipeline
  | personaplex
deriving DecidableEq

/-- Externally observable connection state of the five pipelines: the
connected flag and whether a connection attempt is pending. -/
structure OrchState where
  connected : PipeMode → Bool
  pending : PipeMode → Bool

/-- State before anything starts: everything down. -/
def initialOrch : OrchState :=
  OrchState.mk (fun _ => false) (fun _ => false)

/-- Events of the orchestration layer: the effect body starting mode `m`
(tearing the others down first), the toggle-off path tearing everything down,
and the asynchronous open callback of mode `m` completing. -/
inductive OrchEvent where
  | switchTo (m : PipeMode)
  | toggleOff
  | sessionOpened (m : PipeMode)

/-- Transition function of the orchestration layer.  An open callback only
connects a mode whose connection is still pending; a connection closed by a
teardown never reports open. -/
def orchStep (st : OrchState) : OrchEvent → OrchState
  | OrchEvent.switchTo m =>
      OrchState.mk (fun _ => false) (fun m2 => decide (m2 = m))
  | OrchEvent.toggleOff =>
      OrchState.mk (fun _ => false) (fun _ => false)
  | OrchEvent.sessionOpened m =>
      if st.pending m = true then
        OrchState.mk (fun m2 => if m2 = m then true else st.connected m2)
          (fun m2 => if m2 = m then false else st.pending m2)
      else st

/-- Orchestration state reached from everything-down by a sequence of
events. -/
def runOrch (evts : List OrchEvent) : OrchState :=
  evts.foldl orchStep initialOrch

/-- A mode is live when it is connected or its connection is pending. -/
def orchActive (st : OrchState) (m : PipeMode) : Bool :=
  st.connected m || st.pending m

/-! ### Pipeline teardown (the five variants)

One teardown per pipeline variant: disconnect of useGeminiLive, stop of
useTextTranslation, disconnect of useLocalOmni, stop of useLocalPipeline and
disconnect of usePersonaPlex.  Each model carries exactly the
resource-acquisition state its teardown releases; configuration refs the
teardown deliberately leaves in place (target language, TTS mode, watermark
refs) are not resources and are not part of the state. -/

/-- Resource state touched by stop in useLocalPipeline. -/
structure LocalPipelineState where
  wsOpen : Bool
  recognitionActive : Bool
  mediaStreamActive : Bool
  audioContextOpen : Bool
  playbackContextOpen : Bool
  nextPlayTime : ℚ
  activeSourceCount : Nat
  isActive : Bool
  isSpeaking : Bool
  volume : ℚ
deriving DecidableEq

/-- The released resource state: every handle null or closed, counters and
flags cleared.  This is also the state before start is ever called. -/
def localPipelineReleased : LocalPipelineState :=
  LocalPipelineState.mk false false false false false 0 0 false false 0

/-- Effect of stop in useLocalPipeline on the modelled resource state: the
socket, recognition, media tracks and both audio contexts are closed and
nulled, nextPlayTime and the active-source count reset, and the isActive,
isSpeaking and volume outputs cleared — unconditionally, with every close
guarded so no branch can throw. -/
def localPipelineStop (_st : LocalPipelineState) : LocalPipelineState :=
  LocalPipelineState.mk false false false false false 0 0 false false 0

/-- Resource state touched by disconnect in usePersonaPlex. -/
structure PersonaPlexState where
  wsOpen : Bool
  mediaStreamActive : Bool
  audioContextOpen : Bool
  playbackContextOpen : Bool
  nextPlayTime : ℚ
  isConnected : Bool
  isConnecting : Bool
  volume : ℚ
  audioPlaybackCount : Nat
deriving DecidableEq

/-- The released resource state of the PersonaPlex pipeline; also its state
before connect is ever called. -/
def personaPlexReleased : PersonaPlexState :=
  PersonaPlexState.mk false false false false 0 false false 0 0

/-- Effect of disconnect in usePersonaPlex on the modelled resource state:
socket closed and nulled, media tracks stopped, both audio contexts closed,
nextPlayTime reset, flags and counters cleared — unconditionally. -/
def personaPlexDisconnect (_st : PersonaPlexState) : PersonaPlexState :=
  PersonaPlexState.mk false false false false 0 false false 0 0

/-- Resource state touched by disconnect in useGeminiLive. -/
structure GeminiLiveState where
  nudgeIntervalActive : Bool
  mediaStreamActive : Bool
  audioContextOpen : Bool
  playbackContextOpen : Bool
  nextPlayTime : ℚ
  sessionOpen : Bool
  isConnected : Bool
  isConnecting : Bool
  volume : ℚ
  audioPlaybackCount : Nat
deriving DecidableEq

/-- The released resource state of the Gemini Live pipeline; also its state
before connect is ever called. -/
def geminiLiveReleased : GeminiLiveState :=
  GeminiLiveState.mk false false false false 0 false false false 0 0

/-- Effect of disconnect in useGeminiLive on the modelled resource state:
nudge interval cleared, media tracks stopped and nulled, capture and
playback audio contexts closed and nulled, nextPlayTime reset, live session
closed and nulled, connection flags, volume and playback counter cleared —
unconditionally, with every close guarded so no branch can throw. -/
def geminiLiveDisconnect (_st : GeminiLiveState) : GeminiLiveState :=
  GeminiLiveState.mk false false false false 0 false false false 0 0

/-- Resource state touched by stop in useTextTranslation. -/
structure TextTranslationState where
  recognitionActive : Bool
  isActive : Bool
  ttsQueue : List String
  isTTSSpeaking : Bool
  isTranslating : Bool
  isSpeaking : Bool
deriving DecidableEq

/-- The released resource state of the text-translation pipeline; also its
state before start is ever called. -/
def textTranslationReleased : TextTranslationState :=
  TextTranslationState.mk false false [] false false false

/-- Effect of stop in useTextTranslation on the modelled resource state: the
active intent flag dropped, recognition stopped and nulled, any pending
browser speech cancelled, the TTS queue emptied, and the speaking and
in-flight flags cleared — unconditionally, with the recognition stop wrapped
in a guard so no branch can throw. -/
def textTranslationStop (_st : TextTranslationState) : TextTranslationState :=
  TextTranslationState.mk false false [] false false false

/-- Resource state of the local Omni pipeline.  Modelled from the spec: the
useLocalOmni hook itself is not among the sources (only its import and call
sites in the Teleprompter are), so its resource state and teardown are
modelled from the pipeline-variant contract of the spec — stop is
idempotent, releases all resources (network session, audio capture, playback
context) and tolerates being called when never started — following the
socket-pipeline shape shared by the sibling hooks. -/
structure LocalOmniState where
  wsOpen : Bool
  mediaStreamActive : Bool
  audioContextOpen : Bool
  playbackContextOpen : Bool
  nextPlayTime : ℚ
  isConnected : Bool
  isConnecting : Bool
  volume : ℚ
  audioPlaybackCount : Nat
deriving DecidableEq

/-- The released resource state of the local Omni pipeline; also its state
before connect is ever called. -/
def localOmniReleased : LocalOmniState :=
  LocalOmniState.mk false false false false 0 false false 0 0

/-- Modelled from the spec: disconnect of the missing useLocalOmni hook
releases the socket, media stream and audio contexts, resets nextPlayTime
and clears the flags and counters — unconditionally, per the contract that
stop is idempotent and safe on a never-started mode. -/
def localOmniDisconnect (_st : LocalOmniState) : LocalOmniState :=
  LocalOmniState.mk false false false false 0 false false 0 0

/-! ### Microphone PCM encoder (pcmToBase64) -/

/-- The clamp `Math.max(-1, Math.min(1, x))` applied to each sample. -/
def clampSample (x : ℚ) : ℚ :=
  max (-1) (min 1 x)

/-- Truncation toward zero, as the Int16Array element conversion performs on
an in-range value. -/
def ratTrunc (q : ℚ) : Int :=
  if 0 ≤ q then ⌊q⌋ else ⌈q⌉

/-- The 16-bit value produced for one sample: clamp, then scale negative
samples by 0x8000 and non-negative ones by 0x7FFF. -/
def sampleToInt16 (x : ℚ) : Int :=
  if clampSample x < 0 then ratTrunc (clampSample x * 32768)
  else ratTrunc (clampSample x * 32767)

/-- The two little-endian bytes of a 16-bit value, as read back from the
Int16Array buffer. -/
def int16Bytes (v : Int) : List Nat :=
  [(v % 65536).toNat % 256, (v % 65536).toNat / 256]

/-- The byte sequence encoded from a list of samples (the bytes subsequently
fed to btoa). -/
def pcmBytes : List ℚ → List Nat
  | [] => []
  | x :: rest => int16Bytes (sampleToInt16 x) ++ pcmBytes rest

/-! ### Characterisation of one tracking step -/

/-- Either a tracking step leaves the cursor unchanged, or the first
qualifying candidate in the bounded forward window was found and the cursor
moved just past it. -/
theorem trackStep_spec (cw : List String) (a : Nat) (t : String) :
    trackStep cw a t = a ∨
    ∃ i, a ≤ i ∧ i < min (a + 20) cw.length ∧
      qualifies cw a (lastWordOf t) (secondLastOf t) (thirdLastOf t) i = true ∧
      trackStep cw a t = i + 1 := by
  unfold trackStep
  by_cases h1 : t = ""
  · simp [h1]
  · rw [if_neg h1]
    by_cases h2 : transcriptWords t = []
    · simp [h2]
    · rw [if_neg h2]
      rcases hf : (List.range' a (min (a + 20) cw.length - a)).find?
          (qualifies cw a (lastWordOf t) (secondLastOf t) (thirdLastOf t)) with - | i
      · exact Or.inl rfl
      · refine Or.inr ⟨i, ?_, ?_, List.find?_some hf, rfl⟩
        · exact (List.mem_range'_1.mp (List.mem_of_find?_eq_some hf)).1
        · have h3 := List.mem_range'_1.mp (List.mem_of_find?_eq_some hf)
          omega

/-- A tracking step never moves the cursor backwards. -/
theorem le_trackStep (cw : List String) (a : Nat) (t : String) : a ≤ trackStep cw a t := by
  rcases trackStep_spec cw a t with h | ⟨i, hai, -, -, heq⟩
  · omega
  · omega

/-- Monotonicity over a whole sequence of tracking updates. -/
theorem le_foldl_trackStep (cw : List String) (ts : List String) :
    ∀ a : Nat, a ≤ ts.foldl (trackStep cw) a := by
  induction ts with
  | nil => intro a; exact le_refl a
  | cons t rest ih =>
      intro a
      calc a ≤ trackStep cw a t := le_trackStep cw a t
        _ ≤ rest.foldl (trackStep cw) (trackStep cw a t) := ih _

/-- C1: a tracking update advances the cursor to i + 1 only at a candidate
index i whose normalised script word equals the last spoken word and whose
consecutive-match count meets the distance-dependent requirement, which is 1
at distance 0 or 1, 2 at distance 2 through 10, and 3 beyond distance 10; in
particular, on the script "the cat sat on the mat" with cursor 0, the
single-word match "mat" at distance 5 does not advance the cursor, while
"the mat" (two consecutive matches) and "cat" (distance 1) do. -/
theorem tracker_distance_gated :
    (∀ (cw : List String) (a : Nat) (t : String), trackStep cw a t ≠ a →
      ∃ i, trackStep cw a t = i + 1 ∧ a ≤ i ∧ i < cw.length ∧
        cw.getD i "" = lastWordOf t ∧
        requiredMatches (i - a) ≤ matchCountAt cw i (secondLastOf t) (thirdLastOf t)) ∧
    (∀ d : Nat, (d ≤ 1 → requiredMatches d = 1) ∧
      (2 ≤ d → d ≤ 10 → requiredMatches d = 2) ∧ (10 < d → requiredMatches d = 3)) ∧
    trackStep (scriptCleanWords "the cat sat on the mat") 0 "mat" = 0 ∧
    trackStep (scriptCleanWords "the cat sat on the mat") 0 "the mat" = 6 ∧
    trackStep (scriptCleanWords "the cat sat on the mat") 0 "cat" = 2 := by
  refine ⟨?_, ?_, by decide, by decide, by decide⟩
  · intro cw a t hne
    rcases trackStep_spec cw a t with h | ⟨i, hai, hilt, hq, heq⟩
    · exact absurd h hne
    · unfold qualifies at hq
      rw [Bool.and_eq_true] at hq
      refine ⟨i, heq, hai, ?_, ?_, ?_⟩
      · have := min_le_right (a + 20) cw.length
        omega
      · exact of_decide_eq_true hq.1
      · exact of_decide_eq_true hq.2
  · intro d
    unfold requiredMatches
    refine ⟨fun h => ?_, fun h1 h2 => ?_, fun h => ?_⟩ <;> split_ifs <;> omega

/-- Witness for C1 at a concrete advancing input. -/
theorem tracker_distance_gated_witness :
    trackStep (scriptCleanWords "the cat sat on the mat") 0 "the cat" ≠ 0 ∧
    (∃ i, trackStep (scriptCleanWords "the cat sat on the mat") 0 "the cat" = i + 1 ∧
      0 ≤ i ∧ i < (scriptCleanWords "the cat sat on the mat").length ∧
      (scriptCleanWords "the cat sat on the mat").getD i "" = lastWordOf "the cat" ∧
      requiredMatches (i - 0) ≤
        matchCountAt (scriptCleanWords "the cat sat on the mat") i
          (secondLastOf "the cat") (thirdLastOf "the cat")) :=
  ⟨by decide, tracker_distance_gated.1 (scriptCleanWords "the cat sat on the mat") 0 "the cat"
    (by decide)⟩

/-- C3: without manual navigation, the cursor is non-decreasing — one update
either leaves it unchanged or moves it to i + 1 for a candidate i at or after
the current cursor, and any sequence of updates can only move it forward. -/
theorem tracker_monotone :
    (∀ (cw : List String) (a : Nat) (t : String),
        trackStep cw a t = a ∨ ∃ i, a ≤ i ∧ trackStep cw a t = i + 1) ∧
    (∀ (cw : List String) (ts : List String) (a : Nat), a ≤ ts.foldl (trackStep cw) a) := by
  constructor
  · intro cw a t
    rcases trackStep_spec cw a t with h | ⟨i, hai, -, -, heq⟩
    · exact Or.inl h
    · exact Or.inr ⟨i, hai, heq⟩
  · intro cw ts a
    exact le_foldl_trackStep cw ts a

/-! ### Cursor range -/

/-- C2 counterexample: when the tracker matches the final script word, the
cursor is set to the script length itself, leaving the claimed half-open
range [0, length). -/
theorem cursor_exits_half_open_range :
    runNav (scriptCleanWords "the cat") [NavEvent.track "the cat"] 0 =
      (scriptCleanWords "the cat").length ∧
    ¬ (runNav (scriptCleanWords "the cat") [NavEvent.track "the cat"] 0 <
        (scriptCleanWords "the cat").length) :=
  ⟨by decide, by decide⟩

/-- One valid navigation event keeps the cursor at or below the script
length. -/
theorem navStep_le (cw : List String) (a : Nat) (e : NavEvent) (ha : a ≤ cw.length)
    (hv : validNav cw e = true) : navStep cw a e ≤ cw.length := by
  cases e with
  | track t =>
      show trackStep cw a t ≤ cw.length
      rcases trackStep_spec cw a t with h | ⟨i, hai, hilt, -, heq⟩
      · omega
      · have := min_le_right (a + 20) cw.length
        omega
  | clickWord i =>
      simp only [validNav, decide_eq_true_eq] at hv
      exact le_of_lt hv
  | arrowForward =>
      show min (a + 1) (cw.length - 1) ≤ cw.length
      have := min_le_right (a + 1) (cw.length - 1)
      omega
  | arrowBack =>
      show a - 1 ≤ cw.length
      omega
  | restart =>
      show 0 ≤ cw.length
      omega

/-- The bound propagates through any sequence of valid navigation events. -/
theorem runNav_le (cw : List String) (evts : List NavEvent) :
    ∀ a : Nat, a ≤ cw.length → (∀ e ∈ evts, validNav cw e = true) →
      runNav cw evts a ≤ cw.length := by
  induction evts with
  | nil => intro a ha _; exact ha
  | cons e rest ih =>
      intro a ha hv
      exact ih (navStep cw a e) (navStep_le cw a e ha (hv e (List.mem_cons_self e rest)))
        (fun e2 he2 => hv e2 (List.mem_cons_of_mem e he2))

/-- C2 (amended): for a non-empty script, under any sequence of tracker
updates, valid word clicks, arrow keys and restarts, the cursor starting at 0
stays in the closed range [0, length]; the automatic tracking advance can
reach the length itself when the final script word is matched, so only the
closed upper bound holds. -/
theorem cursor_stays_in_closed_range (cw : List String) (evts : List NavEvent)
    (_hlen : 0 < cw.length) (hv : ∀ e ∈ evts, validNav cw e = true) :
    runNav cw evts 0 ≤ cw.length :=
  runNav_le cw evts 0 (Nat.zero_le _) hv

/-- Witness for the amended C2 on a concrete event sequence. -/
theorem cursor_stays_in_closed_range_witness :
    runNav (scriptCleanWords "one two three")
      [NavEvent.track "one two", NavEvent.clickWord 2, NavEvent.arrowBack,
        NavEvent.arrowForward, NavEvent.restart] 0 ≤
      (scriptCleanWords "one two three").length :=
  cursor_stays_in_closed_range _ _ (by decide) (by decide)

/-! ### Segmenter lemmas -/

/-- Trimming the empty string gives the empty string. -/
theorem strTrim_empty : strTrim "" = "" := rfl

/-- The empty string contains no sentence punctuation. -/
theorem hasSentencePunct_empty : hasSentencePunct "" = false := rfl

/-- The empty string has no words. -/
theorem wordCount_empty : wordCount "" = 0 := rfl

/-- Dropping at least the whole string leaves nothing. -/
theorem strDrop_of_le (s : String) (n : Nat) (h : s.length ≤ n) : strDrop s n = "" := by
  show String.mk (List.drop n s.data) = ""
  rw [ List.drop_eq_nil_of_le (show s.data.length ≤ n from h)]

/-- Dropping the length of the string itself leaves nothing. -/
theorem strDrop_length_self (s : String) : strDrop s s.length = "" :=
  strDrop_of_le s s.length (le_refl _)

/-- A take of a list is one of its prefixes. -/
theorem isPrefixOf_take (l : List Char) (n : Nat) : (l.take n).isPrefixOf l = true := by
  rw [ List.isPrefixOf_iff_prefix]
  exact List.take_prefix n l

/-- Diffing a transcript against itself yields no new content. -/
theorem newContentOf_self (w : String) : newContentOf w w = "" := by
  have hcond : ¬(w.length < w.length ∨
      strStartsWith w (strTake w (min 50 w.length)) = false) := by
    rw [ not_or]
    refine ⟨by omega, ?_⟩
    show ¬((w.data.take (min 50 w.length)).isPrefixOf w.data = false)
    rw [isPrefixOf_take]
    simp
  unfold newContentOf
  rw [if_neg hcond, strDrop_length_self, strTrim_empty]

/-- Diffing the empty transcript yields no new content. -/
theorem newContentOf_empty (w : String) : newContentOf w "" = "" := by
  unfold newContentOf
  split_ifs with h
  · exact strTrim_empty
  · rw [strDrop_of_le "" w.length (Nat.zero_le _), strTrim_empty]

/-- C4: a fed transcript triggers a translation request exactly when the
computed new content contains sentence punctuation or has at least five
whitespace-delimited words; the interval check triggers exactly when at
least 2000 ms have passed since the last processed translation and the
trimmed unprocessed suffix has at least two words; and every trigger hands
over exactly the new content after advancing the watermark to the full
current transcript. -/
theorem segmenter_trigger_conditions :
    (∀ (st : SegState) (t : String),
      ((processTranscript st t).2).isSome = true ↔
        (hasSentencePunct (newContentOf st.lastProcessed t) = true ∨
          5 ≤ wordCount (newContentOf st.lastProcessed t))) ∧
    (∀ (st : SegState) (t : String) (st2 : SegState) (c : String),
      processTranscript st t = (st2, some c) →
        c = newContentOf st.lastProcessed t ∧ st2.lastProcessed = t) ∧
    (∀ (st : SegState) (now : Nat),
      ((intervalStep st now).2).isSome = true ↔
        (2000 ≤ now - st.lastProcessedTime ∧
          2 ≤ wordCount (strTrim (strDrop st.fullTranscript st.lastProcessed.length)))) ∧
    (∀ (st : SegState) (now : Nat) (st2 : SegState) (c : String),
      intervalStep st now = (st2, some c) →
        c = strTrim (strDrop st.fullTranscript st.lastProcessed.length) ∧
        st2.lastProcessed = st.fullTranscript) := by
  refine ⟨?_, ?_, ?_, ?_⟩
  · intro st t
    unfold processTranscript
    split_ifs with h1 h2 h3 h4
    · subst h1
      rw [newContentOf_empty]
      simp [hasSentencePunct_empty, wordCount_empty]
    · subst h2
      rw [newContentOf_self]
      simp [hasSentencePunct_empty, wordCount_empty]
    · rw [h3]
      simp [hasSentencePunct_empty, wordCount_empty]
    · rw [Bool.or_eq_true, decide_eq_true_eq] at h4
      exact iff_of_true rfl h4
    · constructor
      · intro h
        simp at h
      · intro h
        exact absurd (by rw [Bool.or_eq_true, decide_eq_true_eq]; exact h) h4
  · intro st t st2 c h
    unfold processTranscript at h
    split_ifs at h with h1 h2 h3 h4
    · simp at h
    · simp at h
    · simp at h
    · rw [Prod.mk.injEq, Option.some.injEq] at h
      exact ⟨h.2.symm, by rw [← h.1]⟩
    · simp at h
  · intro st now
    unfold intervalStep
    split_ifs with h1 h2
    · exact iff_of_true rfl ⟨h1.1, h2.2⟩
    · constructor
      · intro h
        simp at h
      · rintro ⟨ht, hw⟩
        have hne : strTrim (strDrop st.fullTranscript st.lastProcessed.length) ≠ "" := by
          intro he
          rw [he, wordCount_empty] at hw
          omega
        exact absurd ⟨hne, hw⟩ h2
    · constructor
      · intro h
        simp at h
      · rintro ⟨ht, hw⟩
        exfalso
        rcases not_and_or.mp h1 with h | h
        · exact h ht
        · have hfull : strDrop st.fullTranscript st.lastProcessed.length = "" :=
            strDrop_of_le _ _ (not_lt.mp h)
          rw [hfull, strTrim_empty, wordCount_empty] at hw
          omega
  · intro st now st2 c h
    unfold intervalStep at h
    split_ifs at h with h1 h2
    · rw [Prod.mk.injEq, Option.some.injEq] at h
      exact ⟨h.2.symm, by rw [← h.1]⟩
    · simp at h
    · simp at h

/-- Witness for C4: a sentence-boundary comma triggers a request. -/
theorem segmenter_trigger_conditions_witness :
    ((processTranscript (SegState.mk "" 0 0 "" false) "Hello there,").2).isSome = true :=
  (segmenter_trigger_conditions.1 (SegState.mk "" 0 0 "" false) "Hello there,").mpr
    (Or.inl (by decide))

/-! ### New-content rule (C5) -/

/-- The new-content rule exactly as the claim states it: the whole trimmed
transcript in the reset case, the raw suffix beyond the watermark in the
extension case. -/
def specNewContent (w t : String) : String :=
  if t.length < w.length ∨ strStartsWith t (strTake w 50) = false then strTrim t
  else strDrop t w.length

/-- The amended new-content rule: the extension case also trims the suffix. -/
def specNewContentTrimmed (w t : String) : String :=
  if t.length < w.length ∨ strStartsWith t (strTake w 50) = false then strTrim t
  else strTrim (strDrop t w.length)

/-- Taking min(50, length) characters is the same as taking 50. -/
theorem strTake_min_50 (w : String) : strTake w (min 50 w.length) = strTake w 50 := by
  unfold strTake
  congr 1
  have h : w.length = w.data.length := rfl
  rw [h, ← List.take_take, List.take_length]

/-- C5 counterexample: with watermark "hello" and incoming transcript
"hello world" the code produces the trimmed suffix "world", not the raw
suffix " world" stated by the claim. -/
theorem newContent_untrimmed_cex :
    newContentOf "hello" "hello world" = "world" ∧
    specNewContent "hello" "hello world" = " world" ∧
    newContentOf "hello" "hello world" ≠ specNewContent "hello" "hello world" :=
  ⟨by decide, by decide, by decide⟩

/-- C5 (amended): the new content is the whole trimmed transcript whenever
the transcript is shorter than the watermark or fails the bounded prefix
check against its first min(50, length) characters, and otherwise the
trimmed suffix beyond the watermark length. -/
theorem newContent_spec_trimmed (w t : String) :
    newContentOf w t = specNewContentTrimmed w t := by
  unfold newContentOf specNewContentTrimmed
  rw [strTake_min_50]

/-! ### In-flight discipline (C6) -/

/-- A call of translateText on a state with a recent in-flight request is
dropped without touching the state. -/
theorem translateTextStep_drops (st : SegState) (now2 : Nat) (text2 : String)
    (hne2 : strTrim text2 ≠ "") (hT : st.isTranslating = true)
    (hle : now2 - st.lastActivityTime ≤ 10000) :
    translateTextStep st now2 text2 = (st, false) := by
  unfold translateTextStep
  rw [if_neg hne2, if_pos ⟨hT, hle⟩]

/-- A call that proceeds marks the request in flight and stamps the activity
time with the current time. -/
theorem translateTextStep_proceeds (st : SegState) (now : Nat) (text : String)
    (hp : (translateTextStep st now text).2 = true) :
    (translateTextStep st now text).1.isTranslating = true ∧
    (translateTextStep st now text).1.lastActivityTime = now := by
  unfold translateTextStep at hp ⊢
  split_ifs at hp ⊢ with h1 h2
  exact ⟨rfl, rfl⟩

/-- C6: while a request is in flight with activity at most 10 s old, a new
translateText call performs no translation and leaves the state unchanged;
once the in-flight request is stuck for more than 10 s the flag is
force-cleared and the new call proceeds; and a call that proceeds blocks any
further call for the following 10 s, so requests are never concurrent. -/
theorem inflight_discipline (st : SegState) (now : Nat) (text : String)
    (hne : strTrim text ≠ "") :
    (st.isTranslating = true → now - st.lastActivityTime ≤ 10000 →
      translateTextStep st now text = (st, false)) ∧
    (st.isTranslating = true → 10000 < now - st.lastActivityTime →
      (translateTextStep st now text).2 = true ∧
      (translateTextStep st now text).1.isTranslating = true) ∧
    ((translateTextStep st now text).2 = true →
      ∀ (now2 : Nat) (text2 : String), strTrim text2 ≠ "" → now2 - now ≤ 10000 →
        translateTextStep (translateTextStep st now text).1 now2 text2 =
          ((translateTextStep st now text).1, false)) := by
  refine ⟨?_, ?_, ?_⟩
  · intro hT hle
    exact translateTextStep_drops st now text hne hT hle
  · intro hT hgt
    unfold translateTextStep
    rw [if_neg hne, if_neg (by rintro ⟨-, hle⟩; omega)]
    exact ⟨rfl, rfl⟩
  · intro hp now2 text2 hne2 hle2
    obtain ⟨hT, hA⟩ := translateTextStep_proceeds st now text hp
    exact translateTextStep_drops _ now2 text2 hne2 hT (by rw [hA]; exact hle2)

/-- Witness for C6: a concrete in-flight state drops a fresh request. -/
theorem inflight_discipline_witness :
    translateTextStep (SegState.mk "" 0 0 "" true) 5000 "hi" =
      (SegState.mk "" 0 0 "" true, false) :=
  (inflight_discipline (SegState.mk "" 0 0 "" true) 5000 "hi" (by decide)).1 rfl (by omega)

/-! ### Playback queue (C7) -/

/-- C7: each chunk is scheduled at max(current time, nextPlayTime) and
nextPlayTime advances to that start plus the chunk duration; consecutive
chunks never overlap; while the queue is not starved there is no gap; and
three chunks of durations 1.0, 0.5, 0.2 enqueued back-to-back at time t0
start at t0, t0 + 1.0 and t0 + 1.5, strictly in enqueue order. -/
theorem playback_schedule :
    (∀ npt now dur : ℚ, (scheduleChunk npt now dur).1 = max now npt ∧
      (scheduleChunk npt now dur).2 = (scheduleChunk npt now dur).1 + dur) ∧
    (∀ npt now dur now2 dur2 : ℚ,
      (scheduleChunk npt now dur).1 + dur ≤
        (scheduleChunk (scheduleChunk npt now dur).2 now2 dur2).1) ∧
    (∀ npt now dur now2 dur2 : ℚ, now2 ≤ (scheduleChunk npt now dur).2 →
      (scheduleChunk (scheduleChunk npt now dur).2 now2 dur2).1 =
        (scheduleChunk npt now dur).1 + dur) ∧
    (∀ t0 : ℚ, 0 ≤ t0 →
      scheduleStarts 0 [(t0, 1), (t0, 1/2), (t0, 1/5)] = [t0, t0 + 1, t0 + 3/2]) := by
  refine ⟨fun npt now dur => ⟨rfl, rfl⟩, ?_, ?_, ?_⟩
  · intro npt now dur now2 dur2
    exact le_max_right now2 (max now npt + dur)
  · intro npt now dur now2 dur2 h
    exact max_eq_right h
  · intro t0 h
    have h1 : max t0 (0 : ℚ) = t0 := max_eq_left h
    have h2 : max t0 (t0 + 1) = t0 + 1 := max_eq_right (by linarith)
    have h3 : max t0 (t0 + 1 + 1 / 2) = t0 + 1 + 1 / 2 := max_eq_right (by linarith)
    simp only [scheduleStarts, scheduleChunk, h1, h2, h3, List.cons.injEq, and_true]
    ring_nf
    simp

/-- Witness for C7 at t0 = 2. -/
theorem playback_schedule_witness :
    scheduleStarts 0 [((2 : ℚ), 1), (2, 1 / 2), (2, 1 / 5)] = [2, 2 + 1, 2 + 3 / 2] :=
  playback_schedule.2.2.2 2 (by norm_num)

/-! ### Mode exclusivity (C8) -/

/-- An open callback does not change which modes are live: it merely turns a
pending connection into a connected one. -/
theorem orchActive_sessionOpened (st : OrchState) (m x : PipeMode) :
    orchActive (orchStep st (OrchEvent.sessionOpened m)) x = orchActive st x := by
  simp only [orchStep, orchActive]
  by_cases hp : st.pending m = true
  · rw [if_pos hp]
    by_cases hx : x = m
    · subst hx
      simp [hp]
    · simp [hx]
  · rw [if_neg hp]

/-- At most one mode is live (connected or pending). -/
def orchExclusive (st : OrchState) : Prop :=
  ∀ m m2 : PipeMode, orchActive st m = true → orchActive st m2 = true → m = m2

/-- Every orchestration event preserves exclusivity. -/
theorem orchExclusive_step (st : OrchState) (e : OrchEvent) (h : orchExclusive st) :
    orchExclusive (orchStep st e) := by
  cases e with
  | switchTo m =>
      intro m1 m2 h1 h2
      simp only [orchStep, orchActive, Bool.false_or, decide_eq_true_eq] at h1 h2
      rw [h1, h2]
  | toggleOff =>
      intro m1 m2 h1 h2
      simp only [orchStep, orchActive] at h1
      simp at h1
  | sessionOpened m =>
      intro m1 m2 h1 h2
      rw [orchActive_sessionOpened] at h1 h2
      exact h m1 m2 h1 h2

/-- The everything-down state is exclusive. -/
theorem orchExclusive_initial : orchExclusive initialOrch := by
  intro m1 m2 h1 h2
  simp [initialOrch, orchActive] at h1

/-- Exclusivity holds along any event sequence. -/
theorem orchExclusive_foldl (evts : List OrchEvent) :
    ∀ st : OrchState, orchExclusive st → orchExclusive (evts.foldl orchStep st) := by
  induction evts with
  | nil => intro st h; exact h
  | cons e rest ih => intro st h; exact ih (orchStep st e) (orchExclusive_step st e h)

/-- C8: starting any mode first tears every mode down, so immediately after
the switch no connected flag is set — the previous mode observably
disconnects before the new one can connect — and along every sequence of
orchestration events at most one of the five pipeline variants reports
connected at any instant. -/
theorem pipeline_exclusivity :
    (∀ (st : OrchState) (m m2 : PipeMode),
      (orchStep st (OrchEvent.switchTo m)).connected m2 = false) ∧
    (∀ (evts : List OrchEvent) (m m2 : PipeMode),
      (runOrch evts).connected m = true → (runOrch evts).connected m2 = true → m = m2) := by
  constructor
  · intro st m m2
    rfl
  · intro evts m m2 h1 h2
    have hex := orchExclusive_foldl evts initialOrch orchExclusive_initial
    refine hex m m2 ?_ ?_
    · show orchActive (runOrch evts) m = true
      unfold orchActive
      rw [h1]
      rfl
    · show orchActive (runOrch evts) m2 = true
      unfold orchActive
      rw [h2]
      rfl

/-- Witness for C8 on a concrete switch-then-open run. -/
theorem pipeline_exclusivity_witness :
    (runOrch [OrchEvent.switchTo PipeMode.text,
        OrchEvent.sessionOpened PipeMode.text]).connected PipeMode.text = true ∧
    PipeMode.text = PipeMode.text :=
  ⟨by decide, pipeline_exclusivity.2
    [OrchEvent.switchTo PipeMode.text, OrchEvent.sessionOpened PipeMode.text]
    PipeMode.text PipeMode.text (by decide) (by decide)⟩

/-! ### Idempotent teardown (C9) -/

/-- C9: the teardown of every one of the five pipeline variants —
disconnect of useGeminiLive, stop of useTextTranslation, disconnect of the
local Omni pipeline, stop of useLocalPipeline and disconnect of
usePersonaPlex — always lands in the released state (socket and session
null, media stream and audio contexts released, nextPlayTime 0, queue empty,
status flags false) from any prior state; calling it twice in a row changes
nothing further, and calling it on the never-started (released) state leaves
it unchanged. -/
theorem teardown_idempotent :
    ((∀ st : GeminiLiveState, geminiLiveDisconnect st = geminiLiveReleased) ∧
      (∀ st : GeminiLiveState,
        geminiLiveDisconnect (geminiLiveDisconnect st) = geminiLiveDisconnect st) ∧
      geminiLiveDisconnect geminiLiveReleased = geminiLiveReleased) ∧
    ((∀ st : TextTranslationState, textTranslationStop st = textTranslationReleased) ∧
      (∀ st : TextTranslationState,
        textTranslationStop (textTranslationStop st) = textTranslationStop st) ∧
      textTranslationStop textTranslationReleased = textTranslationReleased) ∧
    ((∀ st : LocalOmniState, localOmniDisconnect st = localOmniReleased) ∧
      (∀ st : LocalOmniState,
        localOmniDisconnect (localOmniDisconnect st) = localOmniDisconnect st) ∧
      localOmniDisconnect localOmniReleased = localOmniReleased) ∧
    ((∀ st : LocalPipelineState, localPipelineStop st = localPipelineReleased) ∧
      (∀ st : LocalPipelineState,
        localPipelineStop (localPipelineStop st) = localPipelineStop st) ∧
      localPipelineStop localPipelineReleased = localPipelineReleased) ∧
    ((∀ st : PersonaPlexState, personaPlexDisconnect st = personaPlexReleased) ∧
      (∀ st : PersonaPlexState,
        personaPlexDisconnect (personaPlexDisconnect st) = personaPlexDisconnect st) ∧
      personaPlexDisconnect personaPlexReleased = personaPlexReleased) :=
  ⟨⟨fun _ => rfl, fun _ => rfl, rfl⟩, ⟨fun _ => rfl, fun _ => rfl, rfl⟩,
    ⟨fun _ => rfl, fun _ => rfl, rfl⟩, ⟨fun _ => rfl, fun _ => rfl, rfl⟩,
    ⟨fun _ => rfl, fun _ => rfl, rfl⟩⟩

/-! ### PCM encoder (C10) -/

/-- The clamp really lands in [-1, 1]. -/
theorem clampSample_bounds (x : ℚ) : -1 ≤ clampSample x ∧ clampSample x ≤ 1 := by
  unfold clampSample
  refine ⟨le_max_left _ _, ?_⟩
  rw [max_le_iff]
  exact ⟨by norm_num, min_le_left _ _⟩

/-- The produced 16-bit value never overflows. -/
theorem sampleToInt16_bounds (x : ℚ) :
    -32768 ≤ sampleToInt16 x ∧ sampleToInt16 x ≤ 32767 := by
  obtain ⟨hlo, hhi⟩ := clampSample_bounds x
  unfold sampleToInt16 ratTrunc
  split_ifs with h1 h2 h3
  · exact absurd h2 (not_le.mpr (mul_neg_of_neg_of_pos h1 (by norm_num)))
  · constructor
    · have hv : ((-32768 : Int) : ℚ) ≤ clampSample x * 32768 := by
        push_cast
        nlinarith
      exact_mod_cast le_trans hv (Int.le_ceil _)
    · rw [ Int.ceil_le]
      push_cast
      nlinarith [not_le.mp h2]
  · constructor
    · have h0 : 0 ≤ ⌊clampSample x * 32767⌋ := Int.floor_nonneg.mpr h3
      omega
    · have hv : clampSample x * 32767 ≤ ((32767 : Int) : ℚ) := by
        push_cast
        nlinarith
      have h6 := Int.floor_mono hv
      rw [ Int.floor_intCast] at h6
      exact h6
  · exact absurd (mul_nonneg (not_lt.mp h1) (by norm_num)) h3

/-- Two bytes are produced per sample. -/
theorem pcmBytes_length (data : List ℚ) : (pcmBytes data).length = 2 * data.length := by
  induction data with
  | nil => rfl
  | cons x rest ih =>
      show (int16Bytes (sampleToInt16 x) ++ pcmBytes rest).length = 2 * (rest.length + 1)
      rw [List.length_append, ih]
      have h2 : (int16Bytes (sampleToInt16 x)).length = 2 := rfl
      omega

/-- C10: pcmToBase64 is total and overflow-free — every sample is first
clamped to [-1, 1], the scaled 16-bit value always lies in
[-32768, 32767], and the encoded byte sequence has exactly two bytes per
input sample. -/
theorem pcm_encoder_range :
    (∀ x : ℚ, -1 ≤ clampSample x ∧ clampSample x ≤ 1) ∧
    (∀ x : ℚ, -32768 ≤ sampleToInt16 x ∧ sampleToInt16 x ≤ 32767) ∧
    (∀ data : List ℚ, (pcmBytes data).length = 2 * data.length) :=
  ⟨clampSample_bounds, sampleToInt16_bounds, pcmBytes_length⟩
